import Mathlib

/-! Shallow embedding of src/impls/mod.rs of bevy-inspector-egui: the
Inspectable implementations for the numeric types, String, bool, Color and
Vec, together with the configuration structs they consume.

Modelling conventions.

Rust f32 and f64 scalar values are represented as exact rationals.  The
embedded code performs no floating point arithmetic on them except at
clearly marked points: the integer-to-f64 conversions of the delegating
integer editors are modelled exactly as round-to-nearest-even at 53
significant bits (roundNatF64, roundIntF64); the float-to-integer
casts are modelled as Rust saturating casts (truncate toward zero, then
clamp to the target range); and the cast of the range bounds to f32
inside the DragValue builder is modelled by round-to-nearest-even at 24
significant bits (natAsF32 and intAsF32 for the integer editors, ratAsF32
for the f64 editor, the identity for the f32 editor whose bounds are f32
values already).  Gradual underflow and overflow to infinity lie far
outside the magnitudes these casts can meet here and are not modelled.

The egui widgets (DragValue, TextEdit, the checkbox and the color
buttons) are a third-party dependency: they are modelled as the
configuration data this crate puts into them plus a one-frame interaction
semantics.  An interaction of none leaves the bound value exactly as the
widget displays it; an interaction that edits the widget stores the edited
value, clamped to the range when the crate configured one.  In Rust every
ui method mutates the value behind the mutable reference it received; here
each ui function returns the value that the Rust code leaves in place. -/

namespace BevyInspectorEgui

/-- Source struct NumberAttributes (per call configuration of a numeric
editor).  The source fields named after the two DragValue label strings are
called pre and suf here because their Rust names are unavailable as Lean
identifiers; speed is an f32 in the source. -/
structure NumberAttributes (T : Type) where
  min : T
  max : T
  speed : ℚ
  pre : String
  suf : String
deriving DecidableEq

/-- Source method NumberAttributes::map, used by the f64 delegating macro
to cast min and max while keeping speed and the label strings. -/
def NumberAttributes.map {T U : Type} (o : NumberAttributes T) (f : T → U) :
    NumberAttributes U :=
  { min := f o.min, max := f o.max, speed := o.speed, pre := o.pre, suf := o.suf }

/-- The Options wrapper of the crate; only its custom payload is read by
the code under inspection, so only that field is modelled. -/
structure Options (T : Type) where
  custom : T
deriving DecidableEq

/-- Options::map as used by the delegating macro: transform the custom
payload. -/
def Options.map {T U : Type} (o : Options T) (f : T → U) : Options U :=
  ⟨f o.custom⟩

/-- Model of the egui DragValue widget state as configured by this crate:
the bound value, the two label strings, an optional range and an optional
drag speed. -/
structure DragValue (T : Type) where
  value : T
  pre : String
  suf : String
  range : Option (T × T)
  speed : Option ℚ
deriving DecidableEq

/-- One frame of the modelled egui DragValue: no interaction leaves the
displayed value unchanged; an edit stores the edited value, clamped to the
range when one was set. -/
def DragValue.render {T : Type} [LinearOrder T] (w : DragValue T) (act : Option T) : T :=
  match act with
  | none => w.value
  | some d =>
    match w.range with
    | none => d
    | some (lo, hi) => max lo (min d hi)

/-- Round a natural number to the nearest value representable with a prec
bit significand, ties to even: the exact meaning of the IEEE754 rounding
performed by Rust numeric casts on a nonnegative integral input, with prec
53 for a cast to f64 and prec 24 for a cast to f32. -/
def roundNatPrec (prec n : ℕ) : ℕ :=
  if n < 2 ^ prec then n
  else
    let e := n.log2 - (prec - 1)
    let q := n / 2 ^ e
    let r := n % 2 ^ e
    let half := 2 ^ e / 2
    let q2 := if half < r ∨ (r = half ∧ q % 2 = 1) then q + 1 else q
    q2 * 2 ^ e

/-- roundNatPrec on a signed integral input: round the absolute value. -/
def roundIntPrec (prec : ℕ) (n : ℤ) : ℤ :=
  if n < 0 then -(roundNatPrec prec n.natAbs : ℤ) else (roundNatPrec prec n.natAbs : ℤ)

/-- Rust unsigned integer to f64 cast (53 bit significand). -/
def roundNatF64 : ℕ → ℕ := roundNatPrec 53

/-- Rust signed integer to f64 cast (53 bit significand). -/
def roundIntF64 : ℤ → ℤ := roundIntPrec 53

/-- Rust u8 to f32 cast, the bound cast of the u8 editor (24 bit
significand, hence exact on all of u8). -/
def natAsF32 : ℕ → ℕ := roundNatPrec 24

/-- Rust i32 to f32 cast, the bound cast of the i32 editor; exact only for
absolute values below 2 to the 24. -/
def intAsF32 : ℤ → ℤ := roundIntPrec 24

/-- The rational value of the f64 produced by a Rust u64, u32 or u16 to f64
cast. -/
def natAsF64 (n : ℕ) : ℚ := (roundNatF64 n : ℚ)

/-- The rational value of the f64 produced by a Rust i64, i16 or i8 to f64
cast. -/
def intAsF64 (n : ℤ) : ℚ := (roundIntF64 n : ℚ)

/-- Round a rational to the nearest integer, ties to even. -/
def ratRoundEven (m : ℚ) : ℤ :=
  let f := ⌊m⌋
  let frac := m - (f : ℚ)
  if frac < 1 / 2 then f
  else if 1 / 2 < frac then f + 1
  else if f % 2 = 0 then f else f + 1

/-- Rust f64 to f32 cast on a finite value, the bound cast of the f64
editor and so also of the bounds the delegating integer editors hand to
it: round to the nearest value with a 24 bit significand, ties to even.
An integral input takes the roundIntPrec path; a general input is scaled
by a power of two into the 24 bit significand range, rounded to an integer
and scaled back. -/
def ratAsF32 (q : ℚ) : ℚ :=
  if q = 0 then 0
  else if q.den = 1 then (roundIntPrec 24 q.num : ℚ)
  else
    let s0 : ℤ := (Nat.log2 q.num.natAbs : ℤ) - (Nat.log2 q.den : ℤ) - 23
    let m0 : ℚ := |q| / 2 ^ s0
    let s : ℤ := if m0 < 2 ^ 23 then s0 - 1 else if 2 ^ 24 ≤ m0 then s0 + 1 else s0
    let m : ℚ := |q| / 2 ^ s
    let r : ℚ := (ratRoundEven m : ℚ) * 2 ^ s
    if q < 0 then -r else r

/-- Truncation toward zero of a rational: the integral part taken by Rust
float to integer casts. -/
def ratTrunc (q : ℚ) : ℤ :=
  if q < 0 then -⌊-q⌋ else ⌊q⌋

/-- Rust saturating float to unsigned integer cast: truncate toward zero
and clamp to 0 .. bound. -/
def floatAsNat (bound : ℕ) (q : ℚ) : ℕ :=
  if q < 0 then 0 else min (ratTrunc q).toNat bound

/-- Rust saturating float to signed integer cast: truncate toward zero and
clamp to lo .. hi. -/
def floatAsInt (lo hi : ℤ) (q : ℚ) : ℤ :=
  max lo (min (ratTrunc q) hi)

/-- The DragValue built by the body of the impl_for_num macro (source lines
50 to 67), rendered field by field: the widget starts at the bound value
with nothing set, the label strings are set when nonempty, the range is set
exactly when min and max differ and holds the bounds cast to f32 (asF32 is
the to-f32 cast of the scalar type of the editor, matching the source cast
of line 60), and the speed is set to the caller speed when nonzero and
otherwise to the default speed of the macro invocation (none for u8 and
i32, 0.1 for f32 and f64). -/
def mkDragValue {T : Type} [DecidableEq T] (asF32 : T → T) (defaultSpeed : Option ℚ)
    (self : T) (custom : NumberAttributes T) : DragValue T where
  value := self
  pre := if custom.pre = "" then "" else custom.pre
  suf := if custom.suf = "" then "" else custom.suf
  range := if custom.min = custom.max then none
    else some (asF32 custom.min, asF32 custom.max)
  speed := if custom.speed = 0 then defaultSpeed else some custom.speed

/-- Shared body of the impl_for_num macro: build the DragValue from the
options and add it to the ui, returning the value left in the binding. -/
def numUi {T : Type} [LinearOrder T] (asF32 : T → T) (defaultSpeed : Option ℚ)
    (self : T) (options : Options (NumberAttributes T)) (act : Option T) : T :=
  (mkDragValue asF32 defaultSpeed self options.custom).render act

/-- impl Inspectable for f32 (impl_for_num with default speed 0.1); the f32
to f32 bound cast is the identity. -/
def f32Ui : ℚ → Options (NumberAttributes ℚ) → Option ℚ → ℚ :=
  numUi id (some (1 / 10))

/-- impl Inspectable for f64 (impl_for_num with default speed 0.1); the
range bounds are cast from f64 to f32. -/
def f64Ui : ℚ → Options (NumberAttributes ℚ) → Option ℚ → ℚ :=
  numUi ratAsF32 (some (1 / 10))

/-- impl Inspectable for u8 (impl_for_num without a default speed). -/
def u8Ui : ℕ → Options (NumberAttributes ℕ) → Option ℕ → ℕ :=
  numUi natAsF32 none

/-- impl Inspectable for i32 (impl_for_num without a default speed). -/
def i32Ui : ℤ → Options (NumberAttributes ℤ) → Option ℤ → ℤ :=
  numUi intAsF32 none

/-- Option mapping done by impl_for_num_delegate_f64 (source lines 81 to
87): cast min and max to f64 and replace a zero speed by 1.0. -/
def delegateOptions {T : Type} (asF64 : T → ℚ) (options : Options (NumberAttributes T)) :
    Options (NumberAttributes ℚ) :=
  options.map fun custom =>
    let custom2 := custom.map asF64
    if custom2.speed = 0 then { custom2 with speed := 1 } else custom2

/-- Body of impl_for_num_delegate_f64 for an unsigned type whose largest
value is bound: cast the value to f64, run the f64 editor, cast back with
the saturating cast. -/
def delegateUiNat (bound : ℕ) (self : ℕ) (options : Options (NumberAttributes ℕ))
    (act : Option ℚ) : ℕ :=
  let value := natAsF64 self
  let value2 := f64Ui value (delegateOptions natAsF64 options) act
  floatAsNat bound value2

/-- impl Inspectable for u16 (delegated through f64). -/
def u16Ui : ℕ → Options (NumberAttributes ℕ) → Option ℚ → ℕ :=
  delegateUiNat (2 ^ 16 - 1)

/-- impl Inspectable for u32 (delegated through f64). -/
def u32Ui : ℕ → Options (NumberAttributes ℕ) → Option ℚ → ℕ :=
  delegateUiNat (2 ^ 32 - 1)

/-- impl Inspectable for u64 (delegated through f64). -/
def u64Ui : ℕ → Options (NumberAttributes ℕ) → Option ℚ → ℕ :=
  delegateUiNat (2 ^ 64 - 1)

/-- Body of impl_for_num_delegate_f64 for a signed type with value range
lo .. hi. -/
def delegateUiInt (lo hi : ℤ) (self : ℤ) (options : Options (NumberAttributes ℤ))
    (act : Option ℚ) : ℤ :=
  let value := intAsF64 self
  let value2 := f64Ui value (delegateOptions intAsF64 options) act
  floatAsInt lo hi value2

/-- impl Inspectable for i8 (delegated through f64). -/
def i8Ui : ℤ → Options (NumberAttributes ℤ) → Option ℚ → ℤ :=
  delegateUiInt (-(2 ^ 7)) (2 ^ 7 - 1)

/-- impl Inspectable for i16 (delegated through f64). -/
def i16Ui : ℤ → Options (NumberAttributes ℤ) → Option ℚ → ℤ :=
  delegateUiInt (-(2 ^ 15)) (2 ^ 15 - 1)

/-- impl Inspectable for i64 (delegated through f64). -/
def i64Ui : ℤ → Options (NumberAttributes ℤ) → Option ℚ → ℤ :=
  delegateUiInt (-(2 ^ 63)) (2 ^ 63 - 1)

/-- Source struct StringAttributes (derived Default). -/
structure StringAttributes where
  multiline : Bool
deriving DecidableEq

/-- Model of the egui TextEdit widget as configured here: which of the two
constructors was used and the text it is bound to. -/
structure TextEdit where
  multi : Bool
  text : String
deriving DecidableEq

/-- TextEdit::singleline of egui. -/
def TextEdit.singleline (s : String) : TextEdit := ⟨false, s⟩

/-- TextEdit::multiline of egui. -/
def TextEdit.multiline (s : String) : TextEdit := ⟨true, s⟩

/-- One frame of the modelled TextEdit: no interaction keeps the bound
text, an edit replaces it. -/
def TextEdit.render (w : TextEdit) (act : Option String) : String :=
  match act with
  | none => w.text
  | some s => s

/-- The widget chosen by impl Inspectable for String (source lines 120 to
123). -/
def stringWidget (self : String) (options : Options StringAttributes) : TextEdit :=
  match options.custom.multiline with
  | false => TextEdit.singleline self
  | true => TextEdit.multiline self

/-- impl Inspectable for String: build the widget and add it to the ui. -/
def stringUi (self : String) (options : Options StringAttributes)
    (act : Option String) : String :=
  (stringWidget self options).render act

/-- impl Inspectable for bool renders a checkbox; the modelled interaction
is whether the checkbox was clicked this frame, which toggles the value. -/
def boolUi (self : Bool) (_options : Options Unit) (clicked : Bool) : Bool :=
  if clicked then !self else self

/-- Source struct ColorAttributes (derived Default). -/
structure ColorAttributes where
  alpha : Bool
deriving DecidableEq

/-- bevy Color with straight rgba channels (f32 in the engine, exact
rationals here); the Into conversion to an array of four f32 reads the
channels in this order. -/
structure Color where
  r : ℚ
  g : ℚ
  b : ℚ
  a : ℚ
deriving DecidableEq

/-- bevy Color::rgb: alpha is set to 1.0. -/
def Color.rgb (r g b : ℚ) : Color := ⟨r, g, b, 1⟩

/-- bevy Color::rgba_u8: each byte is divided by 255. -/
def Color.rgba_u8 (r g b a : ℕ) : Color :=
  ⟨(r : ℚ) / 255, (g : ℚ) / 255, (b : ℚ) / 255, (a : ℚ) / 255⟩

/-- egui Color32: four u8 channels, stored as given by
from_rgba_premultiplied and read back by to_array. -/
structure Color32 where
  r : ℕ
  g : ℕ
  b : ℕ
  a : ℕ
deriving DecidableEq

/-- impl Inspectable for Color (source lines 144 to 163).  actSrgba is the
interaction with the srgba color button of the alpha branch, actRgb with
the rgb color button of the other branch; in each branch the untouched
interaction leaves the widget at the channels the crate loaded into it.
The multiplication by u8::MAX as f32 equals multiplication by 255. -/
def colorUi (self : Color) (options : Options ColorAttributes)
    (actSrgba : Option Color32) (actRgb : Option (ℚ × ℚ × ℚ)) : Color :=
  let old : ℚ × ℚ × ℚ × ℚ := (self.r, self.g, self.b, self.a)
  if options.custom.alpha then
    let color : Color32 :=
      ⟨floatAsNat 255 (old.1 * 255), floatAsNat 255 (old.2.1 * 255),
       floatAsNat 255 (old.2.2.1 * 255), floatAsNat 255 (old.2.2.2 * 255)⟩
    let color2 := match actSrgba with
      | none => color
      | some c => c
    Color.rgba_u8 color2.r color2.g color2.b color2.a
  else
    let color : ℚ × ℚ × ℚ := (old.1, old.2.1, old.2.2.1)
    let color2 := match actRgb with
      | none => color
      | some c => c
    Color.rgb color2.1 color2.2.1 color2.2.2

/-- One frame of interactions with the Vec editor: the interaction passed
to each row element widget, which row minus buttons were clicked, and
whether the plus button was clicked. -/
structure VecActs (A : Type) where
  elemAct : ℕ → A
  minusClicked : ℕ → Bool
  plusClicked : Bool

/-- The value of to_delete after the row loop of Vec::ui: each clicked
minus button overwrites the previous value, so the last clicked row wins. -/
def vecToDelete (minusClicked : ℕ → Bool) (len : ℕ) : Option ℕ :=
  (List.range len).foldl (fun td i => if minusClicked i then some i else td) none

/-- The list after the row loop of Vec::ui has run every element ui with a
clone of the options. -/
def vecEdited {T O A : Type} (elemUi : T → O → A → T) (self : List T) (options : O)
    (acts : VecActs A) : List T :=
  self.enum.map fun p => elemUi p.2 options (acts.elemAct p.1)

/-- The list after the optional push of T::default() triggered by the plus
button. -/
def vecAppended {T O A : Type} (elemUi : T → O → A → T) (dflt : T) (self : List T)
    (options : O) (acts : VecActs A) : List T :=
  if acts.plusClicked then vecEdited elemUi self options acts ++ [dflt]
  else vecEdited elemUi self options acts

/-- impl Inspectable for Vec (source lines 173 to 197): edit every row,
record the last clicked minus button as to_delete, push a default on plus,
then remove the recorded index.  dflt stands for T::default(). -/
def vecUi {T O A : Type} (elemUi : T → O → A → T) (dflt : T) (self : List T)
    (options : O) (acts : VecActs A) : List T :=
  match vecToDelete acts.minusClicked self.length with
  | some i => (vecAppended elemUi dflt self options acts).eraseIdx i
  | none => vecAppended elemUi dflt self options acts

/-- impl Default for NumberAttributes (source lines 21 to 31); tDefault
stands for T::default(), which is 0 for every numeric type. -/
def NumberAttributes.default {T : Type} (tDefault : T) : NumberAttributes T :=
  { min := tDefault, max := tDefault, speed := 0, pre := "", suf := "" }

/-- Derived Default of StringAttributes: multiline is false. -/
def StringAttributes.default : StringAttributes := ⟨false⟩

/-- Derived Default of ColorAttributes: alpha is false. -/
def ColorAttributes.default : ColorAttributes := ⟨false⟩

/-! Shared lemmas about the embedded definitions. -/

theorem mkDragValue_value {T : Type} [DecidableEq T] (asF32 : T → T) (ds : Option ℚ)
    (self : T) (custom : NumberAttributes T) :
    (mkDragValue asF32 ds self custom).value = self := rfl

theorem numUi_none {T : Type} [LinearOrder T] (asF32 : T → T) (ds : Option ℚ)
    (self : T) (options : Options (NumberAttributes T)) :
    numUi asF32 ds self options none = self := rfl

theorem numUi_some {T : Type} [LinearOrder T] (asF32 : T → T) (ds : Option ℚ)
    (self : T) (options : Options (NumberAttributes T)) (d : T) :
    numUi asF32 ds self options (some d) =
      if options.custom.min = options.custom.max then d
      else max (asF32 options.custom.min) (min d (asF32 options.custom.max)) := by
  by_cases h : options.custom.min = options.custom.max <;>
    simp [numUi, mkDragValue, DragValue.render, h]

theorem roundNatPrec_eq_of_lt {prec n : ℕ} (h : n < 2 ^ prec) :
    roundNatPrec prec n = n := by
  unfold roundNatPrec
  rw [if_pos h]

theorem roundIntPrec_eq_of_lt {prec : ℕ} {n : ℤ} (h : n.natAbs < 2 ^ prec) :
    roundIntPrec prec n = n := by
  unfold roundIntPrec
  rw [roundNatPrec_eq_of_lt h]
  by_cases hn : n < 0
  · rw [if_pos hn, Int.natCast_natAbs, abs_of_neg hn, neg_neg]
  · rw [if_neg hn, Int.natCast_natAbs, abs_of_nonneg (not_lt.mp hn)]

theorem roundNatF64_eq_of_lt {n : ℕ} (h : n < 2 ^ 53) : roundNatF64 n = n :=
  roundNatPrec_eq_of_lt h

theorem roundIntF64_eq_of_lt {n : ℤ} (h : n.natAbs < 2 ^ 53) : roundIntF64 n = n :=
  roundIntPrec_eq_of_lt h

theorem ratAsF32_intCast {n : ℤ} (h : n.natAbs < 2 ^ 24) : ratAsF32 (n : ℚ) = n := by
  rw [ratAsF32]
  by_cases h0 : (n : ℚ) = 0
  · rw [if_pos h0, h0]
  · rw [if_neg h0, if_pos (Rat.den_intCast n), Rat.num_intCast,
      roundIntPrec_eq_of_lt h]

theorem ratAsF32_natCast {n : ℕ} (h : n < 2 ^ 24) : ratAsF32 (n : ℚ) = n := by
  have := ratAsF32_intCast (n := (n : ℤ)) (by simpa using h)
  simpa using this

theorem natAsF64_eq_of_lt {n : ℕ} (h : n < 2 ^ 53) : natAsF64 n = (n : ℚ) := by
  rw [natAsF64, roundNatF64_eq_of_lt h]

theorem intAsF64_eq_of_lt {n : ℤ} (h : n.natAbs < 2 ^ 53) : intAsF64 n = (n : ℚ) := by
  rw [intAsF64, roundIntF64_eq_of_lt h]

theorem ratTrunc_natCast (n : ℕ) : ratTrunc (n : ℚ) = (n : ℤ) := by
  rw [ratTrunc, if_neg (not_lt.mpr (by positivity)), Int.floor_natCast]

theorem ratTrunc_intCast (v : ℤ) : ratTrunc (v : ℚ) = v := by
  rw [ratTrunc]
  by_cases h : (v : ℚ) < 0
  · rw [if_pos h, ← Int.cast_neg, Int.floor_intCast, neg_neg]
  · rw [if_neg h, Int.floor_intCast]

theorem floatAsNat_natCast {bound n : ℕ} (h : n ≤ bound) :
    floatAsNat bound (n : ℚ) = n := by
  rw [floatAsNat, if_neg (not_lt.mpr (by positivity)), ratTrunc_natCast,
    Int.toNat_ofNat, min_eq_left h]

theorem floatAsInt_intCast {lo hi v : ℤ} (h1 : lo ≤ v) (h2 : v ≤ hi) :
    floatAsInt lo hi (v : ℚ) = v := by
  rw [floatAsInt, ratTrunc_intCast, min_eq_left h2, max_eq_right h1]

theorem floatAsNat_le (bound : ℕ) (q : ℚ) : floatAsNat bound q ≤ bound := by
  rw [floatAsNat]
  split
  · exact Nat.zero_le bound
  · exact min_le_right _ _

theorem floatAsInt_mem {lo hi : ℤ} (h : lo ≤ hi) (q : ℚ) :
    lo ≤ floatAsInt lo hi q ∧ floatAsInt lo hi q ≤ hi := by
  refine ⟨le_max_left _ _, max_le h (min_le_right _ _)⟩

theorem delegateUiNat_none_eq (bound self : ℕ) (options : Options (NumberAttributes ℕ)) :
    delegateUiNat bound self options none = min (roundNatF64 self) bound := by
  rw [delegateUiNat, natAsF64]
  rw [show f64Ui ((roundNatF64 self : ℕ) : ℚ) (delegateOptions natAsF64 options) none
      = ((roundNatF64 self : ℕ) : ℚ) from numUi_none _ _ _ _]
  rw [floatAsNat, if_neg (not_lt.mpr (by positivity)), ratTrunc_natCast, Int.toNat_ofNat]

theorem delegateUiInt_none_eq (lo hi self : ℤ) (options : Options (NumberAttributes ℤ)) :
    delegateUiInt lo hi self options none = max lo (min (roundIntF64 self) hi) := by
  rw [delegateUiInt, intAsF64]
  rw [show f64Ui ((roundIntF64 self : ℤ) : ℚ) (delegateOptions intAsF64 options) none
      = ((roundIntF64 self : ℤ) : ℚ) from numUi_none _ _ _ _]
  rw [floatAsInt, ratTrunc_intCast]

theorem delegateUiNat_none {bound self : ℕ} (options : Options (NumberAttributes ℕ))
    (h1 : roundNatF64 self = self) (h2 : self ≤ bound) :
    delegateUiNat bound self options none = self := by
  rw [delegateUiNat_none_eq, h1, min_eq_left h2]

theorem delegateUiInt_none {lo hi self : ℤ} (options : Options (NumberAttributes ℤ))
    (h1 : roundIntF64 self = self) (h2 : lo ≤ self) (h3 : self ≤ hi) :
    delegateUiInt lo hi self options none = self := by
  rw [delegateUiInt_none_eq, h1, min_eq_left h3, max_eq_right h2]

theorem roundNatF64_u64max : roundNatF64 (2 ^ 64 - 1) = 2 ^ 64 := by
  norm_num [roundNatF64, roundNatPrec, Nat.log2]

theorem roundIntF64_i64max : roundIntF64 (2 ^ 63 - 1) = 2 ^ 63 := by
  norm_num [roundIntF64, roundIntPrec, roundNatPrec, Nat.log2]

theorem roundIntF64_i64min : roundIntF64 (-(2 ^ 63)) = -(2 ^ 63) := by
  norm_num [roundIntF64, roundIntPrec, roundNatPrec, Nat.log2]

theorem vecToDelete_succ (m : ℕ → Bool) (n : ℕ) :
    vecToDelete m (n + 1) = if m n then some n else vecToDelete m n := by
  rw [vecToDelete, List.range_succ, List.foldl_append, List.foldl_cons, List.foldl_nil]
  rfl

theorem vecToDelete_eq_none {m : ℕ → Bool} {len : ℕ}
    (h : ∀ j, j < len → m j = false) : vecToDelete m len = none := by
  induction len with
  | zero => rfl
  | succ n ih =>
    rw [vecToDelete_succ, h n (Nat.lt_succ_self n), if_neg (by simp)]
    exact ih fun j hj => h j (hj.trans (Nat.lt_succ_self n))

theorem vecToDelete_eq_some {m : ℕ → Bool} {len i : ℕ}
    (h : vecToDelete m len = some i) :
    i < len ∧ m i = true ∧ ∀ j, i < j → j < len → m j = false := by
  induction len with
  | zero => simp [vecToDelete] at h
  | succ n ih =>
    rw [vecToDelete_succ] at h
    by_cases hm : m n = true
    · rw [if_pos hm] at h
      obtain rfl := Option.some.inj h
      exact ⟨Nat.lt_succ_self _, hm, fun j hij hjn => absurd hjn (by omega)⟩
    · rw [if_neg hm] at h
      obtain ⟨h1, h2, h3⟩ := ih h
      refine ⟨h1.trans (Nat.lt_succ_self n), h2, fun j hij hjn => ?_⟩
      rcases Nat.lt_succ_iff_lt_or_eq.mp hjn with hj | hj
      · exact h3 j hij hj
      · subst hj
        exact Bool.not_eq_true (m j) |>.mp hm

theorem vecEdited_length {T O A : Type} (elemUi : T → O → A → T) (self : List T)
    (options : O) (acts : VecActs A) :
    (vecEdited elemUi self options acts).length = self.length := by
  rw [vecEdited, List.length_map, List.enum_length]

theorem vecEdited_id {T O A : Type} {elemUi : T → O → A → T} {self : List T}
    {options : O} {acts : VecActs A}
    (h : ∀ i x, elemUi x options (acts.elemAct i) = x) :
    vecEdited elemUi self options acts = self := by
  rw [vecEdited]
  rw [List.map_congr_left (g := Prod.snd) fun p _ => h p.1 p.2]
  exact List.enum_map_snd self

theorem vecAppended_length {T O A : Type} (elemUi : T → O → A → T) (dflt : T)
    (self : List T) (options : O) (acts : VecActs A) :
    (vecAppended elemUi dflt self options acts).length =
      self.length + (if acts.plusClicked then 1 else 0) := by
  rw [vecAppended]
  split <;> simp [vecEdited_length]

theorem delegateOptions_min {T : Type} (asF64 : T → ℚ) (o : Options (NumberAttributes T)) :
    (delegateOptions asF64 o).custom.min = asF64 o.custom.min := by
  by_cases h : o.custom.speed = 0 <;>
    simp [delegateOptions, Options.map, NumberAttributes.map, h]

theorem delegateOptions_max {T : Type} (asF64 : T → ℚ) (o : Options (NumberAttributes T)) :
    (delegateOptions asF64 o).custom.max = asF64 o.custom.max := by
  by_cases h : o.custom.speed = 0 <;>
    simp [delegateOptions, Options.map, NumberAttributes.map, h]

theorem delegateUiNat_some (bound self : ℕ) (o : Options (NumberAttributes ℕ)) (d : ℚ) :
    delegateUiNat bound self o (some d) =
      if natAsF64 o.custom.min = natAsF64 o.custom.max then floatAsNat bound d
      else floatAsNat bound
        (max (ratAsF32 (natAsF64 o.custom.min))
          (min d (ratAsF32 (natAsF64 o.custom.max)))) := by
  rw [delegateUiNat,
    show f64Ui (natAsF64 self) (delegateOptions natAsF64 o) (some d) = _ from
      numUi_some _ _ _ _ _,
    delegateOptions_min, delegateOptions_max]
  split <;> rfl

theorem delegateUiInt_some (lo hi : ℤ) (self : ℤ) (o : Options (NumberAttributes ℤ))
    (d : ℚ) :
    delegateUiInt lo hi self o (some d) =
      if intAsF64 o.custom.min = intAsF64 o.custom.max then floatAsInt lo hi d
      else floatAsInt lo hi
        (max (ratAsF32 (intAsF64 o.custom.min))
          (min d (ratAsF32 (intAsF64 o.custom.max)))) := by
  rw [delegateUiInt,
    show f64Ui (intAsF64 self) (delegateOptions intAsF64 o) (some d) = _ from
      numUi_some _ _ _ _ _,
    delegateOptions_min, delegateOptions_max]
  split <;> rfl

theorem stringUi_none (s : String) (o : Options StringAttributes) :
    stringUi s o none = s := by
  obtain ⟨⟨m⟩⟩ := o
  cases m <;> rfl

/-! Claim theorems. -/

/-- C1 counterexample: the claim fails for the Color implementation.  With
the default options (alpha false) a render pass with no interaction at all
rebuilds the color with Color::rgb, so a color whose alpha channel is 1/2
comes back with alpha 1: the bound value changed. -/
theorem C1_counterexample :
    colorUi ⟨0, 0, 0, (1 : ℚ) / 2⟩ ⟨⟨false⟩⟩ none none ≠ ⟨0, 0, 0, (1 : ℚ) / 2⟩ := by
  intro h
  have ha : (colorUi ⟨0, 0, 0, (1 : ℚ) / 2⟩ ⟨⟨false⟩⟩ none none).a = 1 := rfl
  rw [h] at ha
  norm_num at ha

/-- C1 (amended): a render pass in which the user performs no interaction
leaves the bound value unchanged for every Inspectable implementation
except Color (which always rebuilds the color, see the counterexample).
For u16, u32, i8 and i16 this holds for every value of the type; for u64
and i64 the pass preserves the value exactly when the value survives the
value-as-f64-as-ty roundtrip, that is, when it is representable as an f64
or it is the largest value of the type (u64::MAX and i64::MAX round up to
a power of two that the saturating cast maps back onto them). -/
theorem C1_noop_amended :
    (∀ (v : ℚ) (o : Options (NumberAttributes ℚ)), f32Ui v o none = v)
    ∧ (∀ (v : ℚ) (o : Options (NumberAttributes ℚ)), f64Ui v o none = v)
    ∧ (∀ (v : ℕ) (o : Options (NumberAttributes ℕ)), u8Ui v o none = v)
    ∧ (∀ (v : ℤ) (o : Options (NumberAttributes ℤ)), i32Ui v o none = v)
    ∧ (∀ (v : ℕ) (o : Options (NumberAttributes ℕ)), v < 2 ^ 16 → u16Ui v o none = v)
    ∧ (∀ (v : ℕ) (o : Options (NumberAttributes ℕ)), v < 2 ^ 32 → u32Ui v o none = v)
    ∧ (∀ (v : ℕ) (o : Options (NumberAttributes ℕ)), v ≤ 2 ^ 64 - 1 →
        (u64Ui v o none = v ↔ (roundNatF64 v = v ∨ v = 2 ^ 64 - 1)))
    ∧ (∀ (v : ℤ) (o : Options (NumberAttributes ℤ)),
        -(2 ^ 7) ≤ v → v ≤ 2 ^ 7 - 1 → i8Ui v o none = v)
    ∧ (∀ (v : ℤ) (o : Options (NumberAttributes ℤ)),
        -(2 ^ 15) ≤ v → v ≤ 2 ^ 15 - 1 → i16Ui v o none = v)
    ∧ (∀ (v : ℤ) (o : Options (NumberAttributes ℤ)),
        -(2 ^ 63) ≤ v → v ≤ 2 ^ 63 - 1 →
        (i64Ui v o none = v ↔ (roundIntF64 v = v ∨ v = 2 ^ 63 - 1)))
    ∧ (∀ (s : String) (o : Options StringAttributes), stringUi s o none = s)
    ∧ (∀ (b : Bool) (o : Options Unit), boolUi b o false = b)
    ∧ (∀ (T O A : Type) (elemUi : T → O → A → T) (dflt : T) (self : List T) (o : O)
        (acts : VecActs A),
        acts.plusClicked = false →
        (∀ j, acts.minusClicked j = false) →
        (∀ i x, elemUi x o (acts.elemAct i) = x) →
        vecUi elemUi dflt self o acts = self) := by
  refine ⟨fun v o => numUi_none _ _ _ _, fun v o => numUi_none _ _ _ _,
    fun v o => numUi_none _ _ _ _, fun v o => numUi_none _ _ _ _,
    ?_, ?_, ?_, ?_, ?_, ?_, stringUi_none, fun b o => rfl, ?_⟩
  · intro v o h
    exact delegateUiNat_none o
      (roundNatF64_eq_of_lt (h.trans (by norm_num))) (Nat.le_pred_of_lt h)
  · intro v o h
    exact delegateUiNat_none o
      (roundNatF64_eq_of_lt (h.trans (by norm_num))) (Nat.le_pred_of_lt h)
  · intro v o hv
    rw [show u64Ui v o none = delegateUiNat (2 ^ 64 - 1) v o none from rfl,
      delegateUiNat_none_eq]
    constructor
    · intro h
      rcases le_total (roundNatF64 v) (2 ^ 64 - 1) with hc | hc
      · rw [min_eq_left hc] at h
        exact Or.inl h
      · rw [min_eq_right hc] at h
        exact Or.inr h.symm
    · rintro (h | rfl)
      · rw [h, min_eq_left hv]
      · rw [roundNatF64_u64max]
        norm_num
  · intro v o h1 h2
    refine delegateUiInt_none o (roundIntF64_eq_of_lt ?_) h1 h2
    have : (2 : ℤ) ^ 7 = 128 := by norm_num
    rw [this] at h1 h2
    have : (2 : ℕ) ^ 53 = 9007199254740992 := by norm_num
    rw [this]
    omega
  · intro v o h1 h2
    refine delegateUiInt_none o (roundIntF64_eq_of_lt ?_) h1 h2
    have : (2 : ℤ) ^ 15 = 32768 := by norm_num
    rw [this] at h1 h2
    have : (2 : ℕ) ^ 53 = 9007199254740992 := by norm_num
    rw [this]
    omega
  · intro v o hv1 hv2
    rw [show i64Ui v o none = delegateUiInt (-(2 ^ 63)) (2 ^ 63 - 1) v o none from rfl,
      delegateUiInt_none_eq]
    constructor
    · intro h
      by_cases hc1 : roundIntF64 v < -(2 ^ 63)
      · rw [min_eq_left (hc1.le.trans (by norm_num)), max_eq_left hc1.le] at h
        rw [← h] at hc1
        rw [roundIntF64_i64min] at hc1
        exact absurd hc1 (lt_irrefl _)
      · by_cases hc2 : roundIntF64 v ≤ 2 ^ 63 - 1
        · rw [min_eq_left hc2, max_eq_right (not_lt.mp hc1)] at h
          exact Or.inl h
        · rw [min_eq_right (not_le.mp hc2).le, max_eq_right (by norm_num)] at h
          exact Or.inr h.symm
    · rintro (h | rfl)
      · rw [h, min_eq_left hv2, max_eq_right hv1]
      · rw [roundIntF64_i64max]
        norm_num
  · intro T O A elemUi dflt self o acts hplus hminus helem
    have hd : vecToDelete acts.minusClicked self.length = none :=
      vecToDelete_eq_none fun j _ => hminus j
    simp only [vecUi, hd]
    rw [vecAppended, if_neg (by simp [hplus]), vecEdited_id helem]

/-- C1 witness: the no-interaction pass evaluated at concrete inputs,
discharging the hypotheses of the amended theorem; both sides of the u64
characterization are exercised: 5 is f64-representable, u64::MAX is not but
is still preserved. -/
theorem C1_noop_witness :
    u64Ui 5 ⟨⟨0, 0, 0, "", ""⟩⟩ none = 5
    ∧ u64Ui (2 ^ 64 - 1) ⟨⟨0, 0, 0, "", ""⟩⟩ none = 2 ^ 64 - 1
    ∧ i64Ui (-6) ⟨⟨0, 0, 0, "", ""⟩⟩ none = -6
    ∧ u16Ui 7 ⟨⟨0, 0, 0, "", ""⟩⟩ none = 7
    ∧ i8Ui (-3) ⟨⟨0, 0, 0, "", ""⟩⟩ none = -3
    ∧ vecUi (fun (x : ℕ) (_ : Unit) (_ : Unit) => x) 0 [1, 2] ()
        ⟨fun _ => (), fun _ => false, false⟩ = [1, 2] :=
  ⟨(C1_noop_amended.2.2.2.2.2.2.1 5 _ (by decide)).mpr (Or.inl (by decide)),
   (C1_noop_amended.2.2.2.2.2.2.1 (2 ^ 64 - 1) _ (by decide)).mpr (Or.inr rfl),
   (C1_noop_amended.2.2.2.2.2.2.2.2.2.1 (-6) _ (by decide) (by decide)).mpr
     (Or.inl (by decide)),
   C1_noop_amended.2.2.2.2.1 7 _ (by decide),
   C1_noop_amended.2.2.2.2.2.2.2.1 (-3) _ (by decide) (by decide),
   C1_noop_amended.2.2.2.2.2.2.2.2.2.2.2.2 ℕ Unit Unit _ 0 [1, 2] ()
     ⟨fun _ => (), fun _ => false, false⟩ rfl (fun _ => rfl) (fun _ _ => rfl)⟩

/-- C2: totality of the ui operations.  In this embedding every ui function
is a total Lean function; the two places the claim singles out are proved:
the delegated integer editors always return a value inside the range of the
target type (the value-to-f64-and-back path saturates instead of failing,
whatever the interaction), and the remove index of Vec::ui is always in
bounds for the list it is applied to (it indexes a row of the original
list, which only grew since). -/
theorem C2_total_saturating :
    (∀ (v : ℕ) (o : Options (NumberAttributes ℕ)) (a : Option ℚ),
      u16Ui v o a ≤ 2 ^ 16 - 1)
    ∧ (∀ (v : ℕ) (o : Options (NumberAttributes ℕ)) (a : Option ℚ),
      u32Ui v o a ≤ 2 ^ 32 - 1)
    ∧ (∀ (v : ℕ) (o : Options (NumberAttributes ℕ)) (a : Option ℚ),
      u64Ui v o a ≤ 2 ^ 64 - 1)
    ∧ (∀ (v : ℤ) (o : Options (NumberAttributes ℤ)) (a : Option ℚ),
      -(2 ^ 7) ≤ i8Ui v o a ∧ i8Ui v o a ≤ 2 ^ 7 - 1)
    ∧ (∀ (v : ℤ) (o : Options (NumberAttributes ℤ)) (a : Option ℚ),
      -(2 ^ 15) ≤ i16Ui v o a ∧ i16Ui v o a ≤ 2 ^ 15 - 1)
    ∧ (∀ (v : ℤ) (o : Options (NumberAttributes ℤ)) (a : Option ℚ),
      -(2 ^ 63) ≤ i64Ui v o a ∧ i64Ui v o a ≤ 2 ^ 63 - 1)
    ∧ (∀ (m : ℕ → Bool) (len i : ℕ), vecToDelete m len = some i → i < len)
    ∧ (∀ (T O A : Type) (elemUi : T → O → A → T) (dflt : T) (self : List T) (o : O)
        (acts : VecActs A) (i : ℕ),
        vecToDelete acts.minusClicked self.length = some i →
        i < (vecAppended elemUi dflt self o acts).length) := by
  refine ⟨fun v o a => floatAsNat_le _ _, fun v o a => floatAsNat_le _ _,
    fun v o a => floatAsNat_le _ _,
    fun v o a => floatAsInt_mem (by norm_num) _,
    fun v o a => floatAsInt_mem (by norm_num) _,
    fun v o a => floatAsInt_mem (by norm_num) _,
    fun m len i h => (vecToDelete_eq_some h).1,
    fun T O A elemUi dflt self o acts i h => ?_⟩
  rw [vecAppended_length]
  exact Nat.lt_of_lt_of_le (vecToDelete_eq_some h).1 (Nat.le_add_right _ _)

/-- C2 witness: the in-bounds facts evaluated at a concrete interaction
that clicks the minus button of row 1 and the plus button. -/
theorem C2_total_saturating_witness :
    (1 : ℕ) < 3
    ∧ 1 < (vecAppended (fun (x : ℕ) (_ : Unit) (_ : Unit) => x) 0 [5, 6, 7] ()
        ⟨fun _ => (), fun j => decide (j = 1), true⟩).length
    ∧ u16Ui 70000 ⟨⟨0, 0, 0, "", ""⟩⟩ (some 70000) ≤ 2 ^ 16 - 1 :=
  ⟨C2_total_saturating.2.2.2.2.2.2.1 (fun j => decide (j = 1)) 3 1 rfl,
   C2_total_saturating.2.2.2.2.2.2.2 ℕ Unit Unit (fun x _ _ => x) 0 [5, 6, 7] ()
     ⟨fun _ => (), fun j => decide (j = 1), true⟩ 1 rfl,
   C2_total_saturating.1 70000 ⟨⟨0, 0, 0, "", ""⟩⟩ (some 70000)⟩

/-- C3 counterexample: for u64 the option values min 2^53 and max 2^53 + 1
differ, yet the editor applies no range at all because both bounds collapse
to the same f64 before the comparison: an edit to 0 is stored as 0, far
below min, so the edited value is not clamped although min and max are
unequal. -/
theorem C3_counterexample :
    ((2 ^ 53 : ℕ) ≠ 2 ^ 53 + 1)
    ∧ u64Ui (2 ^ 53) ⟨⟨2 ^ 53, 2 ^ 53 + 1, 1, "", ""⟩⟩ (some 0) = 0
    ∧ ((0 : ℕ) < 2 ^ 53) := by
  refine ⟨by norm_num, ?_, by norm_num⟩
  rw [show u64Ui (2 ^ 53) ⟨⟨2 ^ 53, 2 ^ 53 + 1, 1, "", ""⟩⟩ (some 0) = _ from
    delegateUiNat_some _ _ _ _]
  rw [if_pos (by rw [natAsF64, natAsF64]; norm_num [roundNatF64, roundNatPrec, Nat.log2])]
  rw [show ((0 : ℚ) = ((0 : ℕ) : ℚ)) from by norm_num, floatAsNat_natCast (by norm_num)]

/-- C3 (amended): a range is configured on the widget exactly when min and
max differ, and then the edited value is clamped to the configured bounds
as cast to f32 (exact for u8 always and for every bound below 2 to the 24
in absolute value; i32, f64 and the delegated types with larger bounds
clamp to the f32-rounded bounds); when min equals max no range constraint
is applied and the value is stored unconstrained.  For the integer types
that delegate through f64 the min-max comparison is made after casting
both bounds to f64, so clamping is applied exactly when the two bounds
remain different as f64 values: distinct u64 or i64 bounds that round to
the same f64 yield no range constraint at all. -/
theorem C3_range_amended :
    (∀ (T : Type) (inst : LinearOrder T) (asF32 : T → T) (ds : Option ℚ) (self : T)
        (o : Options (NumberAttributes T)) (d : T),
      (o.custom.min = o.custom.max → @numUi T inst asF32 ds self o (some d) = d)
      ∧ (o.custom.min ≠ o.custom.max →
          @numUi T inst asF32 ds self o (some d)
            = max (asF32 o.custom.min) (min d (asF32 o.custom.max))
          ∧ (asF32 o.custom.min ≤ asF32 o.custom.max →
              asF32 o.custom.min ≤ @numUi T inst asF32 ds self o (some d)
              ∧ @numUi T inst asF32 ds self o (some d) ≤ asF32 o.custom.max)))
    ∧ (∀ (T : Type) (inst : DecidableEq T) (asF32 : T → T) (ds : Option ℚ) (self : T)
        (c : NumberAttributes T),
      ((@mkDragValue T inst asF32 ds self c).range = some (asF32 c.min, asF32 c.max)
          ↔ c.min ≠ c.max)
      ∧ (c.min = c.max → (@mkDragValue T inst asF32 ds self c).range = none))
    ∧ (∀ (bound self : ℕ) (o : Options (NumberAttributes ℕ)) (d : ℚ),
      (natAsF64 o.custom.min = natAsF64 o.custom.max →
        delegateUiNat bound self o (some d) = floatAsNat bound d)
      ∧ (natAsF64 o.custom.min ≠ natAsF64 o.custom.max →
        delegateUiNat bound self o (some d)
          = floatAsNat bound
              (max (ratAsF32 (natAsF64 o.custom.min))
                (min d (ratAsF32 (natAsF64 o.custom.max))))))
    ∧ (∀ (lo hi self : ℤ) (o : Options (NumberAttributes ℤ)) (d : ℚ),
      (intAsF64 o.custom.min = intAsF64 o.custom.max →
        delegateUiInt lo hi self o (some d) = floatAsInt lo hi d)
      ∧ (intAsF64 o.custom.min ≠ intAsF64 o.custom.max →
        delegateUiInt lo hi self o (some d)
          = floatAsInt lo hi
              (max (ratAsF32 (intAsF64 o.custom.min))
                (min d (ratAsF32 (intAsF64 o.custom.max)))))) := by
  refine ⟨fun T inst asF32 ds self o d => ⟨fun h => ?_, fun h => ⟨?_, fun hle => ?_⟩⟩,
    fun T inst asF32 ds self c => ⟨⟨fun h => ?_, fun h => ?_⟩, fun h => ?_⟩,
    fun bound self o d =>
      ⟨fun h => by rw [delegateUiNat_some, if_pos h],
       fun h => by rw [delegateUiNat_some, if_neg h]⟩,
    fun lo hi self o d =>
      ⟨fun h => by rw [delegateUiInt_some, if_pos h],
       fun h => by rw [delegateUiInt_some, if_neg h]⟩⟩
  · rw [numUi_some, if_pos h]
  · rw [numUi_some, if_neg h]
  · rw [numUi_some, if_neg h]
    exact ⟨le_max_left _ _, max_le hle (min_le_right _ _)⟩
  · intro he
    rw [mkDragValue] at h
    simp only [he, if_pos rfl] at h
    exact Option.noConfusion h
  · show (if c.min = c.max then none else some (asF32 c.min, asF32 c.max))
      = some (asF32 c.min, asF32 c.max)
    rw [if_neg h]
  · show (if c.min = c.max then none else some (asF32 c.min, asF32 c.max)) = none
    rw [if_pos h]

/-- C3 witness: clamping applied and skipped at concrete inputs: the f32
editor with range 0 to 10 clamps an edit to 99 down to 10, the same editor
with equal bounds stores 99 unchanged, and a delegated editor with f64
distinct bounds 1 and 4 clamps an edit to 99 down to 4. -/
theorem C3_range_witness :
    numUi id (some (1 / 10)) (5 : ℚ) ⟨⟨0, 10, 0, "", ""⟩⟩ (some 99) = 10
    ∧ numUi id (some (1 / 10)) (5 : ℚ) ⟨⟨3, 3, 0, "", ""⟩⟩ (some 99) = 99
    ∧ delegateUiNat (2 ^ 64 - 1) 5 ⟨⟨1, 4, 0, "", ""⟩⟩ (some 99) = 4 := by
  refine ⟨?_, ?_, ?_⟩
  · have h := ((C3_range_amended.1 ℚ inferInstance id (some (1 / 10)) 5
      ⟨⟨0, 10, 0, "", ""⟩⟩ 99).2 (by norm_num)).1
    rw [h]
    norm_num
  · exact (C3_range_amended.1 ℚ inferInstance id (some (1 / 10)) 5
      ⟨⟨3, 3, 0, "", ""⟩⟩ 99).1 rfl
  · have h := (C3_range_amended.2.2.1 (2 ^ 64 - 1) 5 ⟨⟨1, 4, 0, "", ""⟩⟩ 99).2
      (by rw [natAsF64, natAsF64, roundNatF64_eq_of_lt (by norm_num),
        roundNatF64_eq_of_lt (by norm_num)]; norm_num)
    rw [h, natAsF64, natAsF64, roundNatF64_eq_of_lt (by norm_num),
      roundNatF64_eq_of_lt (by norm_num),
      ratAsF32_natCast (by norm_num), ratAsF32_natCast (by norm_num)]
    rw [show max ((1 : ℕ) : ℚ) (min 99 ((4 : ℕ) : ℚ)) = ((4 : ℕ) : ℚ) from by norm_num]
    exact floatAsNat_natCast (by norm_num)

/-- C7: every ui operation is deterministic: two calls with the same
initial value, the same options and the same one-frame interaction produce
the same resulting value.  The embedding is derived from source code that
reads no global state and uses no randomness, so each ui is a pure function
of exactly these three inputs. -/
theorem C7_deterministic :
    (∀ (v v2 : ℚ) (o o2 : Options (NumberAttributes ℚ)) (a a2 : Option ℚ),
      v = v2 → o = o2 → a = a2 → f32Ui v o a = f32Ui v2 o2 a2)
    ∧ (∀ (v v2 : ℚ) (o o2 : Options (NumberAttributes ℚ)) (a a2 : Option ℚ),
      v = v2 → o = o2 → a = a2 → f64Ui v o a = f64Ui v2 o2 a2)
    ∧ (∀ (v v2 : ℕ) (o o2 : Options (NumberAttributes ℕ)) (a a2 : Option ℕ),
      v = v2 → o = o2 → a = a2 → u8Ui v o a = u8Ui v2 o2 a2)
    ∧ (∀ (v v2 : ℤ) (o o2 : Options (NumberAttributes ℤ)) (a a2 : Option ℤ),
      v = v2 → o = o2 → a = a2 → i32Ui v o a = i32Ui v2 o2 a2)
    ∧ (∀ (v v2 : ℕ) (o o2 : Options (NumberAttributes ℕ)) (a a2 : Option ℚ),
      v = v2 → o = o2 → a = a2 →
        u16Ui v o a = u16Ui v2 o2 a2
        ∧ u32Ui v o a = u32Ui v2 o2 a2
        ∧ u64Ui v o a = u64Ui v2 o2 a2)
    ∧ (∀ (v v2 : ℤ) (o o2 : Options (NumberAttributes ℤ)) (a a2 : Option ℚ),
      v = v2 → o = o2 → a = a2 →
        i8Ui v o a = i8Ui v2 o2 a2
        ∧ i16Ui v o a = i16Ui v2 o2 a2
        ∧ i64Ui v o a = i64Ui v2 o2 a2)
    ∧ (∀ (s s2 : String) (o o2 : Options StringAttributes) (a a2 : Option String),
      s = s2 → o = o2 → a = a2 → stringUi s o a = stringUi s2 o2 a2)
    ∧ (∀ (b b2 : Bool) (o o2 : Options Unit) (a a2 : Bool),
      b = b2 → o = o2 → a = a2 → boolUi b o a = boolUi b2 o2 a2)
    ∧ (∀ (c c2 : Color) (o o2 : Options ColorAttributes) (s s2 : Option Color32)
        (a a2 : Option (ℚ × ℚ × ℚ)),
      c = c2 → o = o2 → s = s2 → a = a2 → colorUi c o s a = colorUi c2 o2 s2 a2)
    ∧ (∀ (T O A : Type) (elemUi : T → O → A → T) (d d2 : T) (self self2 : List T)
        (o o2 : O) (acts acts2 : VecActs A),
      d = d2 → self = self2 → o = o2 → acts = acts2 →
        vecUi elemUi d self o acts = vecUi elemUi d2 self2 o2 acts2) := by
  refine ⟨fun v v2 o o2 a a2 h1 h2 h3 => by rw [h1, h2, h3],
    fun v v2 o o2 a a2 h1 h2 h3 => by rw [h1, h2, h3],
    fun v v2 o o2 a a2 h1 h2 h3 => by rw [h1, h2, h3],
    fun v v2 o o2 a a2 h1 h2 h3 => by rw [h1, h2, h3],
    fun v v2 o o2 a a2 h1 h2 h3 => by rw [h1, h2, h3]; exact ⟨rfl, rfl, rfl⟩,
    fun v v2 o o2 a a2 h1 h2 h3 => by rw [h1, h2, h3]; exact ⟨rfl, rfl, rfl⟩,
    fun s s2 o o2 a a2 h1 h2 h3 => by rw [h1, h2, h3],
    fun b b2 o o2 a a2 h1 h2 h3 => by rw [h1, h2, h3],
    fun c c2 o o2 s s2 a a2 h1 h2 h3 h4 => by rw [h1, h2, h3, h4],
    fun T O A elemUi d d2 self self2 o o2 acts acts2 h1 h2 h3 h4 => by
      rw [h1, h2, h3, h4]⟩

/-- C7 witness: determinism applied at a concrete call. -/
theorem C7_deterministic_witness :
    f32Ui 1 ⟨⟨0, 0, 0, "", ""⟩⟩ none = f32Ui 1 ⟨⟨0, 0, 0, "", ""⟩⟩ none :=
  C7_deterministic.1 1 1 ⟨⟨0, 0, 0, "", ""⟩⟩ ⟨⟨0, 0, 0, "", ""⟩⟩ none none rfl rfl rfl

/-- C8: in one call of Vec::ui the plus button appends exactly one
T::default() at the end; at most one element is removed, namely the highest
indexed row whose minus button was clicked; the removal happens after the
possible append, removes exactly the element at that index and preserves
the relative order of the remaining elements (the result is the appended
list with the slice before the index followed by the slice after it). -/
theorem C8_vec_ops :
    ∀ (T O A : Type) (elemUi : T → O → A → T) (dflt : T) (self : List T) (o : O)
      (acts : VecActs A),
      (acts.plusClicked = true →
        vecAppended elemUi dflt self o acts = vecEdited elemUi self o acts ++ [dflt])
      ∧ (acts.plusClicked = false →
        vecAppended elemUi dflt self o acts = vecEdited elemUi self o acts)
      ∧ (vecToDelete acts.minusClicked self.length = none →
        vecUi elemUi dflt self o acts = vecAppended elemUi dflt self o acts)
      ∧ ∀ i, vecToDelete acts.minusClicked self.length = some i →
          acts.minusClicked i = true
          ∧ i < self.length
          ∧ (∀ j, i < j → j < self.length → acts.minusClicked j = false)
          ∧ vecUi elemUi dflt self o acts =
              (vecAppended elemUi dflt self o acts).take i
                ++ (vecAppended elemUi dflt self o acts).drop (i + 1)
          ∧ (vecUi elemUi dflt self o acts).length + 1
              = (vecAppended elemUi dflt self o acts).length := by
  intro T O A elemUi dflt self o acts
  refine ⟨fun h => by rw [vecAppended, if_pos h],
    fun h => by rw [vecAppended, if_neg (by simp [h])],
    fun h => by simp only [vecUi, h],
    fun i h => ?_⟩
  obtain ⟨h1, h2, h3⟩ := vecToDelete_eq_some h
  have hlen : i < (vecAppended elemUi dflt self o acts).length := by
    rw [vecAppended_length]
    exact Nat.lt_of_lt_of_le h1 (Nat.le_add_right _ _)
  have hui : vecUi elemUi dflt self o acts
      = (vecAppended elemUi dflt self o acts).eraseIdx i := by
    simp only [vecUi, h]
  refine ⟨h2, h1, h3, ?_, ?_⟩
  · rw [hui, List.eraseIdx_eq_take_drop_succ]
  · rw [hui, List.length_eraseIdx_add_one hlen]

/-- C8 witness: a frame that clicks the minus button of row 1 and the plus
button turns the list 10, 20, 30 into 10, 30, 0: one default appended, then
exactly the element at index 1 removed, order preserved. -/
theorem C8_vec_ops_witness :
    vecUi (fun (x : ℕ) (_ : Unit) (_ : Unit) => x) 0 [10, 20, 30] ()
      ⟨fun _ => (), fun j => decide (j = 1), true⟩ = [10, 30, 0] := by
  have h := (C8_vec_ops ℕ Unit Unit (fun x _ _ => x) 0 [10, 20, 30] ()
    ⟨fun _ => (), fun j => decide (j = 1), true⟩).2.2.2 1 rfl
  rw [h.2.2.2.1]
  rfl

/-- C5: the Default instances produce the neutral configuration:
NumberAttributes::default() has min and max equal to T::default(), speed
0.0 and empty label strings; StringAttributes::default() has multiline
false; ColorAttributes::default() has alpha false. -/
theorem C5_default_configs :
    (∀ (T : Type) (tDefault : T),
      (NumberAttributes.default tDefault).min = tDefault
      ∧ (NumberAttributes.default tDefault).max = tDefault
      ∧ (NumberAttributes.default tDefault).speed = 0
      ∧ (NumberAttributes.default tDefault).pre = ""
      ∧ (NumberAttributes.default tDefault).suf = "")
    ∧ StringAttributes.default.multiline = false
    ∧ ColorAttributes.default.alpha = false :=
  ⟨fun _ _ => ⟨rfl, rfl, rfl, rfl, rfl⟩, rfl, rfl⟩

/-- C6: the ui operation of String builds a multiline TextEdit exactly when
options.custom.multiline is true and a singleline TextEdit when it is
false, and the widget is bound to the given string: without interaction the
string is kept, and an edit replaces it with the edited text. -/
theorem C6_string_widget :
    (∀ s : String, stringWidget s ⟨⟨true⟩⟩ = TextEdit.multiline s)
    ∧ (∀ s : String, stringWidget s ⟨⟨false⟩⟩ = TextEdit.singleline s)
    ∧ (∀ s : String,
        (TextEdit.multiline s).multi = true ∧ (TextEdit.singleline s).multi = false)
    ∧ (∀ (s : String) (o : Options StringAttributes), (stringWidget s o).text = s)
    ∧ (∀ (s : String) (o : Options StringAttributes), stringUi s o none = s)
    ∧ (∀ (s t : String) (o : Options StringAttributes), stringUi s o (some t) = t) := by
  refine ⟨fun s => rfl, fun s => rfl, fun s => ⟨rfl, rfl⟩, ?_, ?_, fun s t o => rfl⟩
  · intro s o
    obtain ⟨⟨m⟩⟩ := o
    cases m <;> rfl
  · intro s o
    obtain ⟨⟨m⟩⟩ := o
    cases m <;> rfl

/-- C9: when the alpha option is false, Color::ui always stores back a
color rebuilt with Color::rgb from the red, green and blue channels, so the
resulting alpha channel is 1 regardless of the input color and of any
interaction; without interaction the stored color is Color::rgb of the old
channels, with an interaction it is Color::rgb of the edited channels. -/
theorem C9_rgb_rebuild_alpha_one :
    ∀ (c : Color) (actSrgba : Option Color32) (actRgb : Option (ℚ × ℚ × ℚ)),
      (colorUi c ⟨⟨false⟩⟩ actSrgba actRgb).a = 1
      ∧ colorUi c ⟨⟨false⟩⟩ actSrgba none = Color.rgb c.r c.g c.b
      ∧ ∀ x y z : ℚ, colorUi c ⟨⟨false⟩⟩ actSrgba (some (x, y, z)) = Color.rgb x y z := by
  intro c actSrgba actRgb
  refine ⟨?_, rfl, fun x y z => rfl⟩
  cases actRgb <;> rfl

/-- C10: a caller speed of 0.0 is replaced by a type specific default
before the widget is built: the f32 and f64 editors set speed 0.1, the
delegated integer editors set speed 1.0 on the mapped options (so the f64
widget they build always carries that speed), and the u8 and i32 editors
leave the widget speed unset; a nonzero caller speed is always kept. -/
theorem C10_speed_defaults :
    (∀ (asF32 : ℚ → ℚ) (self : ℚ) (c : NumberAttributes ℚ),
      c.speed = 0 → (mkDragValue asF32 (some (1 / 10)) self c).speed = some (1 / 10))
    ∧ (∀ (asF32 : ℕ → ℕ) (self : ℕ) (c : NumberAttributes ℕ),
      c.speed = 0 → (mkDragValue asF32 none self c).speed = none)
    ∧ (∀ (asF32 : ℤ → ℤ) (self : ℤ) (c : NumberAttributes ℤ),
      c.speed = 0 → (mkDragValue asF32 none self c).speed = none)
    ∧ (∀ (T : Type) (inst : DecidableEq T) (asF32 : T → T) (ds : Option ℚ) (self : T)
        (c : NumberAttributes T),
      c.speed ≠ 0 → (@mkDragValue T inst asF32 ds self c).speed = some c.speed)
    ∧ (∀ o : Options (NumberAttributes ℕ),
      o.custom.speed = 0 → (delegateOptions natAsF64 o).custom.speed = 1)
    ∧ (∀ o : Options (NumberAttributes ℤ),
      o.custom.speed = 0 → (delegateOptions intAsF64 o).custom.speed = 1)
    ∧ (∀ o : Options (NumberAttributes ℕ),
      o.custom.speed ≠ 0 → (delegateOptions natAsF64 o).custom.speed = o.custom.speed)
    ∧ (∀ o : Options (NumberAttributes ℤ),
      o.custom.speed ≠ 0 → (delegateOptions intAsF64 o).custom.speed = o.custom.speed)
    ∧ (∀ (v : ℕ) (o : Options (NumberAttributes ℕ)),
      (mkDragValue ratAsF32 (some (1 / 10)) (natAsF64 v)
          (delegateOptions natAsF64 o).custom).speed
        = some (if o.custom.speed = 0 then 1 else o.custom.speed)) := by
  refine ⟨fun asF32 self c h => by simp [mkDragValue, h],
    fun asF32 self c h => by simp [mkDragValue, h],
    fun asF32 self c h => by simp [mkDragValue, h],
    fun T inst asF32 ds self c h => by simp [mkDragValue, h],
    fun o h => by simp [delegateOptions, Options.map, NumberAttributes.map, h],
    fun o h => by simp [delegateOptions, Options.map, NumberAttributes.map, h],
    fun o h => by simp [delegateOptions, Options.map, NumberAttributes.map, h],
    fun o h => by simp [delegateOptions, Options.map, NumberAttributes.map, h],
    fun v o => ?_⟩
  by_cases h : o.custom.speed = 0 <;>
    simp [delegateOptions, Options.map, NumberAttributes.map, mkDragValue, h]

/-- C10 witness: the speed rules evaluated at concrete inputs. -/
theorem C10_speed_defaults_witness :
    (mkDragValue id (some (1 / 10)) (0 : ℚ) (NumberAttributes.default 0)).speed
      = some (1 / 10)
    ∧ (mkDragValue natAsF32 none (0 : ℕ) (NumberAttributes.default 0)).speed = none
    ∧ (mkDragValue id (some (1 / 10)) (5 : ℚ) ⟨1, 2, 3, "", ""⟩).speed = some 3
    ∧ (delegateOptions natAsF64 ⟨NumberAttributes.default 0⟩).custom.speed = 1 :=
  ⟨C10_speed_defaults.1 id 0 _ rfl,
   C10_speed_defaults.2.1 natAsF32 0 _ rfl,
   C10_speed_defaults.2.2.2.1 ℚ _ id (some (1 / 10)) 5 ⟨1, 2, 3, "", ""⟩ (by norm_num),
   C10_speed_defaults.2.2.2.2.1 _ rfl⟩

end BevyInspectorEgui
